import Mathlib

/-!
Shallow embedding of the `coca` library (`src/coca.py`): a terminal
"lines session" that maps logical lines to physical terminal rows and keeps
that mapping correct as lines grow or shrink.

The Python classes `LinesSession`, `Line` and `_LineEntry` are embedded as
Lean structures; the mutating methods become state-passing functions that
additionally return the list of terminal output events (row erasures and
text writes) they emit, so that frame-effect claims about what gets
reprinted can be stated.  The `id`-keyed dictionary plus linked list of
`_LineEntry` records is embedded as a `List LineEntry` in creation order,
with a line handle identified by its creation index (the linked list is
walked strictly in creation order by the source, so the two views coincide).
Machine integers are `Nat` (all reachable values are non-negative); Python
exceptions become `Option`/`Except` results.
-/

namespace Coca

/-- One observable terminal output event: erasing a physical row
(`ESC[2K` after moving the cursor there) or writing a text at a row. -/
inductive Op where
  | erase (row : Nat)
  | write (text : String) (row : Nat)
  deriving Repr, DecidableEq

/-- Embedding of `_LineEntry`: the physical properties of one logical line
(the `line_obj` back-reference is represented by the entry's position in the
session's entry list, and `next_line_entry` by list order). -/
structure LineEntry where
  text : String
  line_number : Nat
  nb_physical_lines : Nat
  deriving Repr, DecidableEq

/-- Embedding of the mutable state of `LinesSession`: `lines_counter`
(number of physical rows), `current_line` (cursor row), `available_width`
(terminal width, fixed after construction) and the entries in creation
order (`lines_index` / the `_LineEntry` linked list). -/
structure SessionState where
  lines_counter : Nat
  current_line : Nat
  available_width : Nat
  entries : List LineEntry
  deriving Repr, DecidableEq

/-- The state produced by `LinesSession.__init__` for a given (positive)
terminal width: one physical line, cursor on row 0, no entries. -/
def initialState (width : Nat) : SessionState :=
  { lines_counter := 1
    current_line := 0
    available_width := width
    entries := [] }

/-- Ceiling division on `Nat`: `(L + W - 1) / W`.  For `W ≥ 1` this equals
`⌈L / W⌉`, which is what `math.ceil(len(text) / width)` computes in the
source (proved in `ceilDiv_eq_ceil` below). -/
def ceilDiv (L W : Nat) : Nat :=
  (L + W - 1) / W

/-- Embedding of `LinesSession._compute_nb_physical_lines`:
`max(1, math.ceil(len(text) / self.available_width))`. -/
def computeNbPhysicalLines (s : SessionState) (text : String) : Nat :=
  max 1 (ceilDiv text.length s.available_width)

/-- Embedding of `LinesSession._set_cursor_to_line_number`: emits cursor
movement escape codes (not modelled as events) and records the new cursor
row. -/
def setCursorToLineNumber (s : SessionState) (line_number : Nat) : SessionState :=
  { s with current_line := line_number }

/-- The erase loop of `_print_at_line`: for each row, move the cursor there
and print `ESC[2K`. -/
def eraseRows (s : SessionState) (rows : List Nat) : SessionState × List Op :=
  match rows with
  | [] => (s, [])
  | r :: rest =>
      let s1 := setCursorToLineNumber s r
      let rec_result := eraseRows s1 rest
      (rec_result.1, Op.erase r :: rec_result.2)

/-- Embedding of `LinesSession._print_at_line`: erase the rows the text
will occupy, move the cursor back to `line_number`, print the text
(a `write` event), set `current_line` to the row after the text, and bump
`lines_counter` to at least `current_line + 1`. -/
def printAtLine (s : SessionState) (text : String) (line_number : Nat) :
    SessionState × List Op :=
  let size := computeNbPhysicalLines s text
  let erased := eraseRows s (List.range' line_number size)
  let s2 := setCursorToLineNumber erased.1 line_number
  let s3 := { s2 with current_line := line_number + size }
  let s4 := { s3 with lines_counter := max s3.lines_counter (s3.current_line + 1) }
  (s4, erased.2 ++ [Op.write text line_number])

/-- A loop printing the empty string at each given row in order, via
`_print_at_line('', line_number)`; this is the body of both `_extend` and
`_truncate`'s loop. -/
def printEmptyAtRows (s : SessionState) (rows : List Nat) : SessionState × List Op :=
  match rows with
  | [] => (s, [])
  | r :: rest =>
      let p := printAtLine s "" r
      let rec_result := printEmptyAtRows p.1 rest
      (rec_result.1, p.2 ++ rec_result.2)

/-- Embedding of `LinesSession._extend`: print the empty string at each row
in Python's `range(lines_counter - 1, lines_counter + size)` (the bounds
are read once, before the loop mutates `lines_counter`).  For
`lines_counter ≥ 1` that range has `size + 1` elements
`lines_counter - 1, …, lines_counter + size - 1`. -/
def extend (s : SessionState) (size : Nat) : SessionState × List Op :=
  printEmptyAtRows s
    (List.range' (s.lines_counter - 1) (s.lines_counter + size - (s.lines_counter - 1)))

/-- Embedding of `LinesSession._truncate`: print the empty string at each
row in `range(current_line, lines_counter - 1)`, restore the cursor to the
row it occupied on entry, and subtract
`size_truncation = lines_counter - current_line - 1` from `lines_counter`. -/
def truncate (s : SessionState) : SessionState × List Op :=
  let original_cursor_position := s.current_line
  let size_truncation := s.lines_counter - s.current_line - 1
  let p := printEmptyAtRows s
    (List.range' s.current_line (s.lines_counter - 1 - s.current_line))
  let s2 := setCursorToLineNumber p.1 original_cursor_position
  ({ s2 with lines_counter := s2.lines_counter - size_truncation }, p.2)

/-- Embedding of the session-mutating part of `LinesSession.line`, taking
the already-rendered text (`line_obj.text()`): create the entry at row
`lines_counter - 1`, append it to the registry, reserve vertical space with
`_extend(nb_physical_lines - 1)`, then print the text at the entry's row. -/
def lineOp (s : SessionState) (text : String) : SessionState × List Op :=
  let nb_physical_lines := computeNbPhysicalLines s text
  let line_entry : LineEntry :=
    { text := text
      line_number := s.lines_counter - 1
      nb_physical_lines := nb_physical_lines }
  let s1 := { s with entries := s.entries ++ [line_entry] }
  let ext := extend s1 (nb_physical_lines - 1)
  let pr := printAtLine ext.1 text line_entry.line_number
  (pr.1, ext.2 ++ pr.2)

/-- The reflow loop of `LinesSession.print_line`: walk the entries after
the updated one, assign each its new row (the running total of preceding
heights), and reprint its stored text there.  Returns the final session
state, the rewritten entries, and the emitted events. -/
def cascade (s : SessionState) (rest : List LineEntry) (row : Nat) :
    SessionState × List LineEntry × List Op :=
  match rest with
  | [] => (s, [], [])
  | e :: rest2 =>
      let moved : LineEntry := { e with line_number := row }
      let p := printAtLine s moved.text row
      let c := cascade p.1 rest2 (row + moved.nb_physical_lines)
      (c.1, moved :: c.2.1, p.2 ++ c.2.2)

/-- The body of `LinesSession.print_line` after the registry lookup
succeeded, for entry index `i` with current record `line_entry` and newly
rendered text `text`: store the text, extend the canvas if the height grew,
reprint the line at its row, and if the height changed update it and
cascade-reprint all subsequent entries; finally truncate if the height
shrank.  The emitted events are concatenated in execution order. -/
def printLineBody (s : SessionState) (i : Nat) (line_entry : LineEntry) (text : String) :
    SessionState × List Op :=
  let s0 := { s with entries := s.entries.set i { line_entry with text := text } }
  let old_nb_physical_lines := line_entry.nb_physical_lines
  let new_nb_physical_lines := computeNbPhysicalLines s text
  let step1 :=
    if old_nb_physical_lines < new_nb_physical_lines then
      extend s0 (new_nb_physical_lines - old_nb_physical_lines)
    else (s0, [])
  let step2 := printAtLine step1.1 text line_entry.line_number
  let step3 :=
    if old_nb_physical_lines ≠ new_nb_physical_lines then
      let s2 := { step2.1 with
        entries := step2.1.entries.set i
          { line_entry with text := text, nb_physical_lines := new_nb_physical_lines } }
      let c := cascade s2 (s2.entries.drop (i + 1))
        (line_entry.line_number + new_nb_physical_lines)
      ({ c.1 with entries := c.1.entries.take (i + 1) ++ c.2.1 }, c.2.2)
    else (step2.1, [])
  let step4 :=
    if new_nb_physical_lines < old_nb_physical_lines then truncate step3.1
    else (step3.1, [])
  (step4.1, step1.2 ++ step2.2 ++ step3.2 ++ step4.2)

/-- Embedding of `LinesSession.print_line` for the line handle with
creation index `i`, whose current rendering is `text`: `none` models the
`KeyError` raised by the registry lookup for an unregistered handle. -/
def printLineOp (s : SessionState) (i : Nat) (text : String) :
    Option (SessionState × List Op) :=
  (s.entries[i]?).map (fun line_entry => printLineBody s i line_entry text)

/-- Embedding of `LinesSession.end`: move the cursor to the last physical
row. -/
def endOp (s : SessionState) : SessionState :=
  setCursorToLineNumber s (s.lines_counter - 1)

/-- One public session operation: creating a new line (with its rendered
text) or updating the line created `i`-th (with its freshly rendered
text). -/
inductive Act where
  | newline (text : String)
  | update (i : Nat) (text : String)

/-- Apply one operation to a session state (dropping the emitted events; an
update of an unregistered index raises in Python and is modelled as leaving
the state unchanged, which no reachable trace exercises). -/
def step (s : SessionState) (a : Act) : SessionState :=
  match a with
  | .newline t => (lineOp s t).1
  | .update i t =>
      match printLineOp s i t with
      | some r => r.1
      | none => s

/-- Run a sequence of operations from a fresh session with the given
terminal width. -/
def run (width : Nat) (acts : List Act) : SessionState :=
  acts.foldl step (initialState width)

/-- The contiguity invariant claimed by the spec: each entry starts on the
row right after the previous entry ends. -/
def entriesContiguous : List LineEntry → Bool
  | [] => true
  | [_] => true
  | e1 :: e2 :: rest =>
      (e2.line_number == e1.line_number + e1.nb_physical_lines)
        && entriesContiguous (e2 :: rest)

/-- A 100-character text: renders on 2 physical rows at width 80. -/
def text100 : String := String.mk (List.replicate 100 'a')

/-- A 250-character text: renders on 4 physical rows at width 80. -/
def text250 : String := String.mk (List.replicate 250 'a')

/-- A concrete session state mirroring the repository's own unit tests for
`_truncate` and `_print_at_line`: 10 physical rows, cursor on row 7,
width 80. -/
def truncTestState : SessionState :=
  { lines_counter := 10, current_line := 7, available_width := 80, entries := [] }

/-- The session state after `line("aa"); line("b")` at width 80: two
one-row entries at rows 0 and 1, used as a concrete same-height-update
scenario. -/
def updateTestState : SessionState := run 80 [.newline "aa", .newline "b"]

/-- The registry record of the first line of `updateTestState`. -/
def updateTestEntry : LineEntry :=
  { text := "aa", line_number := 0, nb_physical_lines := 1 }

/-- The session state after `line(<100 chars>); line("b")` at width 80: a
two-row entry at row 0 and a one-row entry at row 2, used as a concrete
shrinking-update scenario. -/
def shrinkTestState : SessionState := run 80 [.newline text100, .newline "b"]

/-- The registry record of the first line of `shrinkTestState`. -/
def shrinkTestEntry : LineEntry :=
  { text := text100, line_number := 0, nb_physical_lines := 2 }

/-- The fields assigned by `LinesSession.__init__`, with the terminal width
kept as the raw integer reported by `shutil.get_terminal_size()[0]` (which
the constructor stores without any validation). -/
structure InitializedSession where
  lines_counter : Nat
  current_line : Nat
  available_width : Int
  entries : List LineEntry
  deriving Repr, DecidableEq

/-- Embedding of `LinesSession.__init__` as a function of the terminal
width reported by the environment: `lines_counter = 1`, empty registry,
cursor on row 0, and the reported width stored as-is. -/
def linesSessionInit (terminal_width : Int) : InitializedSession :=
  { lines_counter := 1
    current_line := 0
    available_width := terminal_width
    entries := [] }

/-- An error raised while rendering a template: a placeholder whose name is
missing from the parameters (Python `KeyError` from `str.format`), or a
placeholder that is never closed (Python `ValueError`). -/
inductive RenderError where
  | missingKey (key : String)
  | unclosedPlaceholder
  deriving Repr, DecidableEq

/-- Lookup in the keyword-argument mapping (Python `dict` access). -/
def kwLookup (kwargs : List (String × String)) (k : String) : Option String :=
  match kwargs with
  | [] => none
  | (k2, v2) :: rest => if k2 = k then some v2 else kwLookup rest k

/-- Set one key in the keyword-argument mapping, keeping the position of an
existing key (Python `dict` assignment semantics). -/
def kwSet (kwargs : List (String × String)) (k v : String) : List (String × String) :=
  match kwargs with
  | [] => [(k, v)]
  | (k2, v2) :: rest => if k2 = k then (k, v) :: rest else (k2, v2) :: kwSet rest k v

/-- Embedding of Python `dict.update`: set every key of `new` in turn. -/
def kwUpdate (kwargs new : List (String × String)) : List (String × String) :=
  new.foldl (fun acc kv => kwSet acc kv.1 kv.2) kwargs

/-- Modelled from the spec: the out-of-scope substitution primitive
`render(template, params) -> string` (Python `str.format`, which `src`
calls but does not define).  Scans the character list; outside a
placeholder, a literal character is copied and `\x7b` opens a placeholder;
inside one (the accumulated name is `acc`, in reverse), `\x7d` closes it
and substitutes the looked-up value, failing with `missingKey` when the
name has no entry in the parameters. -/
def formatAux (kwargs : List (String × String)) :
    Option (List Char) → List Char → Except RenderError (List Char)
  | none, [] => .ok []
  | some _, [] => .error .unclosedPlaceholder
  | none, c :: rest =>
      if c = '\x7b' then formatAux kwargs (some []) rest
      else (formatAux kwargs none rest).map (fun tail => c :: tail)
  | some acc, c :: rest =>
      if c = '\x7d' then
        match kwLookup kwargs (String.mk acc.reverse) with
        | none => .error (.missingKey (String.mk acc.reverse))
        | some v => (formatAux kwargs none rest).map (fun tail => v.toList ++ tail)
      else formatAux kwargs (some (c :: acc)) rest

/-- Modelled from the spec: `render(template, params)` on strings — the
template with its curly-brace placeholders substituted from the
parameters. -/
def formatString (template : String) (kwargs : List (String × String)) :
    Except RenderError String :=
  (formatAux kwargs none template.toList).map String.mk

/-- Embedding of the `Line` handle: its template and current keyword
arguments (the back-reference to the session is the session value being
threaded through the operations). -/
structure Line where
  template : String
  kwargs : List (String × String)
  deriving Repr, DecidableEq

/-- Embedding of `Line.text`: the template verbatim when there are no
keyword arguments, otherwise `template.format(**kwargs)`. -/
def Line.text (l : Line) : Except RenderError String :=
  if l.kwargs = [] then .ok l.template
  else formatString l.template l.kwargs

/-- Embedding of the handle-mutating part of `Line.update`: a non-`none`
template replaces the stored template and resets the keyword arguments to
the empty mapping; the supplied keyword arguments are then merged with
`dict.update`.  (The subsequent `session.print_line(self)` call is the
session-side operation `printLineOp`.) -/
def Line.update (l : Line) (template : Option String)
    (kwargs : List (String × String)) : Line :=
  let l1 :=
    match template with
    | some t => { l with template := t, kwargs := [] }
    | none => l
  { l1 with kwargs := kwUpdate l1.kwargs kwargs }

/-- Embedding of `LinesSession.line` including the rendering step: the
`Line` handle is constructed, its text rendered — an exception raised here
propagates before any of the session mutations that follow — and only then
is the entry registered, space reserved and the text printed. -/
def sessionLine (s : SessionState) (template : String)
    (kwargs : List (String × String)) :
    SessionState × Except RenderError Line :=
  let line_obj : Line := { template := template, kwargs := kwargs }
  match line_obj.text with
  | .error e => (s, .error e)
  | .ok text => ((lineOp s text).1, .ok line_obj)

lemma eraseRows_fst_counter (s : SessionState) (rows : List Nat) :
    (eraseRows s rows).1.lines_counter = s.lines_counter := by
  induction rows generalizing s with
  | nil => simp [eraseRows]
  | cons r rest ih => simp [eraseRows, setCursorToLineNumber, ih]

lemma eraseRows_fst_entries (s : SessionState) (rows : List Nat) :
    (eraseRows s rows).1.entries = s.entries := by
  induction rows generalizing s with
  | nil => simp [eraseRows]
  | cons r rest ih => simp [eraseRows, setCursorToLineNumber, ih]

lemma eraseRows_fst_width (s : SessionState) (rows : List Nat) :
    (eraseRows s rows).1.available_width = s.available_width := by
  induction rows generalizing s with
  | nil => simp [eraseRows]
  | cons r rest ih => simp [eraseRows, setCursorToLineNumber, ih]

lemma eraseRows_snd (s : SessionState) (rows : List Nat) :
    (eraseRows s rows).2 = rows.map Op.erase := by
  induction rows generalizing s with
  | nil => simp [eraseRows]
  | cons r rest ih => simp [eraseRows, ih]

lemma printAtLine_eq (s : SessionState) (text : String) (line_number : Nat) :
    printAtLine s text line_number =
      ({ s with
          current_line := line_number + computeNbPhysicalLines s text,
          lines_counter :=
            max s.lines_counter (line_number + computeNbPhysicalLines s text + 1) },
        (List.range' line_number (computeNbPhysicalLines s text)).map Op.erase
          ++ [Op.write text line_number]) := by
  simp only [printAtLine, setCursorToLineNumber, eraseRows_fst_counter,
    eraseRows_fst_entries, eraseRows_fst_width, eraseRows_snd]

lemma computeNb_empty (s : SessionState) : computeNbPhysicalLines s "" = 1 := by
  have h : ceilDiv 0 s.available_width = 0 := by
    rcases Nat.eq_zero_or_pos s.available_width with h0 | h0
    · simp [ceilDiv, h0]
    · exact Nat.div_eq_of_lt (by omega)
  simp [computeNbPhysicalLines, h]

lemma computeNb_width_congr (s1 s2 : SessionState) (text : String)
    (h : s1.available_width = s2.available_width) :
    computeNbPhysicalLines s1 text = computeNbPhysicalLines s2 text := by
  simp [computeNbPhysicalLines, h]

lemma printEmptyAtRows_fst_entries (s : SessionState) (rows : List Nat) :
    (printEmptyAtRows s rows).1.entries = s.entries := by
  induction rows generalizing s with
  | nil => simp [printEmptyAtRows]
  | cons r rest ih => simp [printEmptyAtRows, printAtLine_eq, ih]

lemma printEmptyAtRows_fst_width (s : SessionState) (rows : List Nat) :
    (printEmptyAtRows s rows).1.available_width = s.available_width := by
  induction rows generalizing s with
  | nil => simp [printEmptyAtRows]
  | cons r rest ih => simp [printEmptyAtRows, printAtLine_eq, ih]

lemma printEmptyAtRows_fst_counter (s : SessionState) (rows : List Nat)
    (h : ∀ r ∈ rows, r + 2 ≤ s.lines_counter) :
    (printEmptyAtRows s rows).1.lines_counter = s.lines_counter := by
  induction rows generalizing s with
  | nil => simp [printEmptyAtRows]
  | cons r rest ih =>
      have hr := h r (by simp)
      have hmax : max s.lines_counter (r + computeNbPhysicalLines s "" + 1)
          = s.lines_counter := by
        rw [computeNb_empty]; omega
      simp only [printEmptyAtRows, printAtLine_eq, hmax]
      rw [ih]
      · intro r2 hr2
        exact h r2 (by simp [hr2])

lemma printEmptyAtRows_snd (s : SessionState) (rows : List Nat) :
    (printEmptyAtRows s rows).2
      = rows.flatMap (fun r => [Op.erase r, Op.write "" r]) := by
  induction rows generalizing s with
  | nil => simp [printEmptyAtRows]
  | cons r rest ih =>
      simp [printEmptyAtRows, printAtLine_eq, computeNb_empty, ih]

lemma extend_fst_width (s : SessionState) (size : Nat) :
    (extend s size).1.available_width = s.available_width :=
  printEmptyAtRows_fst_width _ _

lemma extend_fst_entries (s : SessionState) (size : Nat) :
    (extend s size).1.entries = s.entries :=
  printEmptyAtRows_fst_entries _ _

lemma ceilDiv_eq_ceil (L W : Nat) (hW : 1 ≤ W) :
    ceilDiv L W = ⌈(L : ℚ) / (W : ℚ)⌉₊ := by
  have hW0 : (0 : ℚ) < (W : ℚ) := by exact_mod_cast hW
  refine Nat.le_antisymm ?_ ?_
  · rw [ceilDiv, Nat.div_le_iff_le_mul_add_pred hW]
    have h1 : (L : ℚ) ≤ (⌈(L : ℚ) / (W : ℚ)⌉₊ : ℚ) * (W : ℚ) :=
      (div_le_iff₀ hW0).1 (Nat.le_ceil _)
    have h2 : L ≤ ⌈(L : ℚ) / (W : ℚ)⌉₊ * W := by exact_mod_cast h1
    have h3 : ⌈(L : ℚ) / (W : ℚ)⌉₊ * W = W * ⌈(L : ℚ) / (W : ℚ)⌉₊ := Nat.mul_comm _ _
    omega
  · rw [Nat.ceil_le, div_le_iff₀ hW0]
    have h4 := Nat.div_add_mod (L + W - 1) W
    have h5 : (L + W - 1) % W < W := Nat.mod_lt _ (by omega)
    have h6 : L ≤ ceilDiv L W * W := by
      rw [ceilDiv]
      have h7 : ((L + W - 1) / W) * W = W * ((L + W - 1) / W) := Nat.mul_comm _ _
      omega
    exact_mod_cast h6

/-- C2: for every text (of any length `L ≥ 0`) and terminal width `W ≥ 1`,
the height computed by `_compute_nb_physical_lines` equals
`max(1, ceil(L / W))`; in particular the height of the empty text is 1. -/
theorem height_eq_max_one_ceil (s : SessionState) (text : String)
    (hW : 1 ≤ s.available_width) :
    computeNbPhysicalLines s text
        = max 1 ⌈(text.length : ℚ) / (s.available_width : ℚ)⌉₊
      ∧ computeNbPhysicalLines s "" = 1 := by
  constructor
  · rw [computeNbPhysicalLines, ceilDiv_eq_ceil _ _ hW]
  · exact computeNb_empty s

/-- Witness for C2 at width 80 and the five-character text `"hello"`. -/
theorem height_eq_max_one_ceil_witness :
    1 ≤ (initialState 80).available_width
      ∧ (computeNbPhysicalLines (initialState 80) "hello"
            = max 1 ⌈(("hello" : String).length : ℚ)
                / ((initialState 80).available_width : ℚ)⌉₊
          ∧ computeNbPhysicalLines (initialState 80) "" = 1) :=
  ⟨by decide, height_eq_max_one_ceil (initialState 80) "hello" (by decide)⟩

/-- C5: whenever `_truncate` runs (from any state with the cursor above the
last physical row, as is the case at its call site), it erases exactly the
rows from the current cursor row up to the previous `lines_counter - 1`
(exclusive, i.e. rows `current_line, …, lines_counter - 2` — Python
`range(current_line, lines_counter - 1)`), restores the cursor to the row
it occupied on entry, and decrements `lines_counter` by exactly the number
of rows so removed. -/
theorem truncate_erases_restores_decrements (s : SessionState)
    (h : s.current_line + 1 ≤ s.lines_counter) :
    (truncate s).1.current_line = s.current_line
      ∧ (truncate s).1.lines_counter = s.current_line + 1
      ∧ s.lines_counter - (truncate s).1.lines_counter
          = (List.range' s.current_line (s.lines_counter - 1 - s.current_line)).length
      ∧ (truncate s).1.entries = s.entries
      ∧ (truncate s).2
          = (List.range' s.current_line (s.lines_counter - 1 - s.current_line)).flatMap
              (fun r => [Op.erase r, Op.write "" r]) := by
  have hrows : ∀ r ∈ List.range' s.current_line (s.lines_counter - 1 - s.current_line),
      r + 2 ≤ s.lines_counter := by
    intro r hr
    rw [List.mem_range'_1] at hr
    omega
  refine ⟨?_, ?_, ?_, ?_, ?_⟩ <;>
    simp [truncate, setCursorToLineNumber, printEmptyAtRows_fst_counter _ _ hrows,
      printEmptyAtRows_fst_entries, printEmptyAtRows_snd, List.length_range'] <;>
    omega

/-- Witness for C5 on the state from the repository's own `_truncate` unit
test: 10 rows, cursor on row 7 — rows 7 and 8 are erased, the cursor stays
on row 7, and `lines_counter` drops from 10 to 8. -/
theorem truncate_erases_restores_decrements_witness :
    truncTestState.current_line + 1 ≤ truncTestState.lines_counter
      ∧ ((truncate truncTestState).1.current_line = truncTestState.current_line
        ∧ (truncate truncTestState).1.lines_counter = truncTestState.current_line + 1
        ∧ truncTestState.lines_counter - (truncate truncTestState).1.lines_counter
            = (List.range' truncTestState.current_line
                (truncTestState.lines_counter - 1 - truncTestState.current_line)).length
        ∧ (truncate truncTestState).1.entries = truncTestState.entries
        ∧ (truncate truncTestState).2
            = (List.range' truncTestState.current_line
                (truncTestState.lines_counter - 1 - truncTestState.current_line)).flatMap
                (fun r => [Op.erase r, Op.write "" r])) :=
  ⟨by decide, truncate_erases_restores_decrements truncTestState (by decide)⟩

/-- C8 counterexample: the constructor performs no width check at all —
`LinesSession.__init__` stores `shutil.get_terminal_size()[0]` as-is, so a
session with `terminal_width ≤ 0` does exist (here: widths 0 and -3), and
no `InvalidWidth` error is surfaced; the class has no such error path. -/
theorem init_accepts_nonpositive_width :
    (linesSessionInit 0).available_width ≤ 0
      ∧ (linesSessionInit (-3)).available_width ≤ 0
      ∧ linesSessionInit 0
          = { lines_counter := 1, current_line := 0, available_width := 0, entries := [] } := by
  decide

/-- C8 amended: the constructor does not validate the reported terminal
width; it stores it unchanged (together with `lines_counter = 1`, cursor
row 0 and an empty registry), so sessions with `terminal_width ≤ 0` are
constructible — width 0 only fails later, with a `ZeroDivisionError`
inside the first height computation. -/
theorem init_stores_width_unchecked (terminal_width : Int) :
    linesSessionInit terminal_width
      = { lines_counter := 1, current_line := 0,
          available_width := terminal_width, entries := [] } :=
  rfl

lemma printEmptyAtRows_counter_range (k : Nat) :
    ∀ (a : Nat) (s : SessionState), s.lines_counter = a + 1 →
    (printEmptyAtRows s (List.range' a k)).1.lines_counter = a + k + 1 := by
  induction k with
  | zero =>
      intro a s h
      simp [printEmptyAtRows]
      omega
  | succ k ih =>
      intro a s h
      rw [List.range'_succ]
      simp only [printEmptyAtRows, printAtLine_eq, computeNb_empty]
      have hst := ih (a + 1)
        { s with current_line := a + 1, lines_counter := max s.lines_counter (a + 1 + 1) }
        (by simp; omega)
      omega

/-- C6 fails on the code: for every session state (with `lines_counter ≥ 1`
as always holds) `_extend(n)` prints `n + 1` empty lines — at rows
`lines_counter - 1, …, lines_counter + n - 1` — and grows `lines_counter`
by exactly `n + 1`, not by `n`: Python's
`range(lines_counter - 1, lines_counter + size)` has `size + 1` elements.
This contradicts the claim and `_extend`'s own docstring ("Extend the
number of lines of the current session by `size` lines"). -/
theorem extend_grows_by_size_plus_one (s : SessionState) (n : Nat)
    (h : 1 ≤ s.lines_counter) :
    (extend s n).1.lines_counter = s.lines_counter + n + 1
      ∧ (extend s n).2
          = (List.range' (s.lines_counter - 1) (n + 1)).flatMap
              (fun r => [Op.erase r, Op.write "" r]) := by
  have hn : s.lines_counter + n - (s.lines_counter - 1) = n + 1 := by omega
  constructor
  · rw [extend, hn]
    have := printEmptyAtRows_counter_range (n + 1) (s.lines_counter - 1) s (by omega)
    omega
  · rw [extend, hn, printEmptyAtRows_snd]

/-- Witness for C6's theorem on a fresh width-80 session: `_extend(1)`
takes `lines_counter` from 1 to 3 and prints two empty lines (at rows 0
and 1), where the claim expected growth by exactly 1 and a single empty
line. -/
theorem extend_grows_by_size_plus_one_witness :
    1 ≤ (initialState 80).lines_counter
      ∧ ((extend (initialState 80) 1).1.lines_counter
            = (initialState 80).lines_counter + 1 + 1
        ∧ (extend (initialState 80) 1).2
            = (List.range' ((initialState 80).lines_counter - 1) (1 + 1)).flatMap
                (fun r => [Op.erase r, Op.write "" r])) :=
  ⟨by decide, extend_grows_by_size_plus_one (initialState 80) 1 (by decide)⟩

/-- C9: updating a handle with a non-`none` template `t` replaces the
stored template by `t` and discards all prior params before merging the
newly supplied ones (so the resulting mapping is `dict.update({}, kwargs)`);
afterwards `text()` returns `t` verbatim when the resulting params mapping
is empty, and otherwise returns `t` with its curly-brace placeholders
substituted from the params (`formatString`). -/
theorem update_with_template_replaces (l : Line) (t : String)
    (kwargs : List (String × String)) :
    (l.update (some t) kwargs).template = t
      ∧ (l.update (some t) kwargs).kwargs = kwUpdate [] kwargs
      ∧ ((l.update (some t) kwargs).kwargs = [] →
          (l.update (some t) kwargs).text = .ok t)
      ∧ ((l.update (some t) kwargs).kwargs ≠ [] →
          (l.update (some t) kwargs).text = formatString t (kwUpdate [] kwargs)) := by
  refine ⟨rfl, rfl, ?_, ?_⟩
  · intro h
    simp only [Line.text, h, if_pos]
    rfl
  · intro h
    simp only [Line.update, kwUpdate] at h ⊢
    simp only [Line.text, h, if_neg]
    simp at h
    simp [h]

/-- Witness for C9: updating `⟨"old", a=1⟩` with template `"v={x}"` and
param `x=7` yields template `"v={x}"`, params `[x=7]` (the prior `a` is
gone), and `text()` renders `"v=7"`. -/
theorem update_with_template_replaces_witness :
    ((Line.mk "old" [("a", "1")]).update (some "v=\x7bx\x7d") [("x", "7")]).kwargs ≠ []
      ∧ (((Line.mk "old" [("a", "1")]).update (some "v=\x7bx\x7d") [("x", "7")]).template
            = "v=\x7bx\x7d"
        ∧ ((Line.mk "old" [("a", "1")]).update (some "v=\x7bx\x7d") [("x", "7")]).kwargs
            = kwUpdate [] [("x", "7")]
        ∧ (((Line.mk "old" [("a", "1")]).update (some "v=\x7bx\x7d") [("x", "7")]).kwargs = [] →
            ((Line.mk "old" [("a", "1")]).update (some "v=\x7bx\x7d") [("x", "7")]).text
              = .ok "v=\x7bx\x7d")
        ∧ (((Line.mk "old" [("a", "1")]).update (some "v=\x7bx\x7d") [("x", "7")]).kwargs ≠ [] →
            ((Line.mk "old" [("a", "1")]).update (some "v=\x7bx\x7d") [("x", "7")]).text
              = formatString "v=\x7bx\x7d" (kwUpdate [] [("x", "7")])))
      ∧ formatString "v=\x7bx\x7d" (kwUpdate [] [("x", "7")]) = .ok "v=7" :=
  ⟨by decide, update_with_template_replaces (Line.mk "old" [("a", "1")]) "v=\x7bx\x7d" [("x", "7")],
    by rfl⟩

/-- C10: when `Session.line` is called with a template containing a
placeholder that has no entry in the params, the rendering error is raised
before any session mutation — the returned session state is exactly the
input state (same registry/entries, `lines_counter` and cursor row), and no
partially-registered entry exists. -/
theorem line_render_error_leaves_state (s : SessionState) (template : String)
    (kwargs : List (String × String)) (e : RenderError)
    (h : Line.text { template := template, kwargs := kwargs } = .error e) :
    sessionLine s template kwargs = (s, .error e) := by
  simp only [sessionLine, h]

/-- Witness for C10: `line("{x}", y="1")` on a session already holding one
line fails with the missing-key error for `x` and leaves the session state
untouched. -/
theorem line_render_error_leaves_state_witness :
    Line.text { template := "\x7bx\x7d", kwargs := [("y", "1")] }
        = .error (.missingKey "x")
      ∧ sessionLine (run 80 [.newline "a"]) "\x7bx\x7d" [("y", "1")]
          = (run 80 [.newline "a"], .error (.missingKey "x")) :=
  ⟨by rfl,
    line_render_error_leaves_state (run 80 [.newline "a"]) "\x7bx\x7d" [("y", "1")]
      (.missingKey "x") (by rfl)⟩

set_option maxRecDepth 40000 in
/-- C1 fails on the code: after `line("a")`, an update of that line to a
100-character text (height 1 → 2 at width 80) and then `line("b")`, the
entries are at rows 0 (height 2) and 3 — row 3 ≠ 0 + 2, a one-row gap — so
the claimed contiguity invariant does not survive every `line`/update
sequence.  The root cause is `_extend`: its loop
`range(lines_counter - 1, lines_counter + size)` prints `size + 1` empty
lines, so the growing update leaves `lines_counter` one higher than the
end of the content and the next `line()` starts one row too low.  The
first two conjuncts exhibit the violation; the last two show the invariant
still held before the final `line("b")`. -/
theorem contiguity_broken_by_grow_then_line :
    (run 80 [.newline "a", .update 0 text100, .newline "b"]).entries.map
        (fun e => (e.line_number, e.nb_physical_lines)) = [(0, 2), (3, 1)]
      ∧ entriesContiguous
          (run 80 [.newline "a", .update 0 text100, .newline "b"]).entries = false
      ∧ entriesContiguous (run 80 [.newline "a", .update 0 text100]).entries = true
      ∧ entriesContiguous (run 80 [.newline "a"]).entries = true := by
  decide

set_option maxRecDepth 40000 in
/-- C3 fails on the code: starting from the reachable (gap) state of
`contiguity_broken_by_grow_then_line` — entries at rows 0 (height 2) and
3, `lines_counter = 5` — updating entry 0 to a 250-character text changes
its height from 2 to 4, a delta of 2; but the subsequent entry's row moves
from 3 to 4, a shift of exactly 1, not 2 (the reflow loop rewrites rows to
be contiguous, absorbing the spurious blank row left by `_extend`'s
off-by-one).  The `lines_counter` clause does hold here (5 → 8, an
increase of 3 ≥ 2). -/
theorem update_shift_not_exactly_delta :
    (run 80 [.newline "a", .update 0 text100, .newline "b"]).entries.map
        (fun e => (e.line_number, e.nb_physical_lines)) = [(0, 2), (3, 1)]
      ∧ computeNbPhysicalLines
          (run 80 [.newline "a", .update 0 text100, .newline "b"]) text250 = 4
      ∧ (run 80 [.newline "a", .update 0 text100, .newline "b"]).lines_counter = 5
      ∧ (run 80 [.newline "a", .update 0 text100, .newline "b",
            .update 0 text250]).entries.map
          (fun e => (e.line_number, e.nb_physical_lines)) = [(0, 4), (4, 1)]
      ∧ (run 80 [.newline "a", .update 0 text100, .newline "b",
            .update 0 text250]).lines_counter = 8 := by
  decide

lemma exists_pre_post (S : SessionState) (A C D : List Op) (P : List Op)
    (Q : Prop) (hQ : Q) :
    ∃ sF pre post, some (S, A ++ P ++ C ++ D) = some (sF, pre ++ P ++ post) ∧ Q :=
  ⟨S, A, C ++ D, by simp [List.append_assoc], hQ⟩

/-- C4: an update whose newly rendered height equals the entry's old height
reprints only that line — `print_line` emits exactly the erases of the
entry's own rows followed by one write of the new text at the entry's row,
skips extend, cascade and truncate, and the only registry change is the
updated entry's stored text: every other entry keeps its row, height and
stored text (second conjunct). -/
theorem update_same_height_reprints_only_line (s : SessionState) (i : Nat)
    (text : String) (e : LineEntry) (he : s.entries[i]? = some e)
    (hh : computeNbPhysicalLines s text = e.nb_physical_lines) :
    printLineOp s i text
        = some ({ s with
            entries := s.entries.set i { e with text := text },
            current_line := e.line_number + e.nb_physical_lines,
            lines_counter :=
              max s.lines_counter (e.line_number + e.nb_physical_lines + 1) },
          (List.range' e.line_number e.nb_physical_lines).map Op.erase
            ++ [Op.write text e.line_number])
      ∧ ∀ j, j ≠ i →
          (s.entries.set i { e with text := text })[j]? = s.entries[j]? := by
  constructor
  · have h1 : ¬ e.nb_physical_lines < computeNbPhysicalLines s text := by omega
    have h2 : ¬ e.nb_physical_lines ≠ computeNbPhysicalLines s text := by omega
    have h3 : ¬ computeNbPhysicalLines s text < e.nb_physical_lines := by omega
    have hcw : computeNbPhysicalLines
        { s with entries := s.entries.set i { e with text := text } } text
          = e.nb_physical_lines := by
      rw [← hh]
      simp [computeNbPhysicalLines]
    simp only [printLineOp, he, Option.map_some', printLineBody,
      if_neg h1, if_neg h2, if_neg h3]
    simp [printAtLine_eq, hcw]
  · intro j hj
    exact List.getElem?_set_ne (Ne.symm hj)

set_option maxRecDepth 40000 in
/-- Witness for C4: on the two-line session `updateTestState`, updating
line 0 from `"aa"` to `"cc"` (height 1 → 1) emits only `erase row 0;
write "cc" at row 0` and leaves the second entry untouched. -/
theorem update_same_height_reprints_only_line_witness :
    updateTestState.entries[0]? = some updateTestEntry
      ∧ computeNbPhysicalLines updateTestState "cc" = updateTestEntry.nb_physical_lines
      ∧ (printLineOp updateTestState 0 "cc"
            = some ({ updateTestState with
                entries := updateTestState.entries.set 0 { updateTestEntry with text := "cc" },
                current_line := updateTestEntry.line_number + updateTestEntry.nb_physical_lines,
                lines_counter := max updateTestState.lines_counter
                  (updateTestEntry.line_number + updateTestEntry.nb_physical_lines + 1) },
              (List.range' updateTestEntry.line_number
                  updateTestEntry.nb_physical_lines).map Op.erase
                ++ [Op.write "cc" updateTestEntry.line_number])
          ∧ ∀ j, j ≠ 0 →
              (updateTestState.entries.set 0 { updateTestEntry with text := "cc" })[j]?
                = updateTestState.entries[j]?) :=
  ⟨by decide, by decide,
    update_same_height_reprints_only_line updateTestState 0 "cc" updateTestEntry
      (by decide) (by decide)⟩

/-- C7: whatever the old and new heights, the reprint step of an update
first erases every row the entry occupies with its new text — rows
`line_number, …, line_number + new_height - 1`, a count that never exceeds
`max(old_height, new_height)` — and only then writes the fresh text at the
entry's row: in the emitted event stream the erases immediately precede
the write, after the (possibly empty) extend events and before the
(possibly empty) cascade and truncate events. -/
theorem update_erases_then_writes (s : SessionState) (i : Nat)
    (text : String) (e : LineEntry) (he : s.entries[i]? = some e) :
    ∃ sF pre post,
      printLineOp s i text
          = some (sF,
              pre ++ ((List.range' e.line_number (computeNbPhysicalLines s text)).map Op.erase
                ++ [Op.write text e.line_number]) ++ post)
        ∧ computeNbPhysicalLines s text
            ≤ max e.nb_physical_lines (computeNbPhysicalLines s text) := by
  have hcw0 : computeNbPhysicalLines
      { s with entries := s.entries.set i { e with text := text } } text
        = computeNbPhysicalLines s text := by
    simp [computeNbPhysicalLines]
  have hcwE : computeNbPhysicalLines
      (extend { s with entries := s.entries.set i { e with text := text } }
        (computeNbPhysicalLines s text - e.nb_physical_lines)).1 text
        = computeNbPhysicalLines s text := by
    refine computeNb_width_congr _ s text ?_
    rw [extend_fst_width]
  rcases Nat.lt_trichotomy e.nb_physical_lines (computeNbPhysicalLines s text)
    with hlt | heq | hgt
  · have h2 : e.nb_physical_lines ≠ computeNbPhysicalLines s text := by omega
    have h3 : ¬ computeNbPhysicalLines s text < e.nb_physical_lines := by omega
    simp only [printLineOp, he, Option.map_some', printLineBody,
      if_pos hlt, if_pos h2, if_neg h3, printAtLine_eq, hcwE]
    exact exists_pre_post _ _ _ _ _ _ (le_max_right _ _)
  · have h1 : ¬ e.nb_physical_lines < computeNbPhysicalLines s text := by omega
    have h2 : ¬ e.nb_physical_lines ≠ computeNbPhysicalLines s text := by omega
    have h3 : ¬ computeNbPhysicalLines s text < e.nb_physical_lines := by omega
    simp only [printLineOp, he, Option.map_some', printLineBody,
      if_neg h1, if_neg h2, if_neg h3, printAtLine_eq, hcw0]
    exact exists_pre_post _ _ _ _ _ _ (le_max_right _ _)
  · have h1 : ¬ e.nb_physical_lines < computeNbPhysicalLines s text := by omega
    have h2 : e.nb_physical_lines ≠ computeNbPhysicalLines s text := by omega
    simp only [printLineOp, he, Option.map_some', printLineBody,
      if_neg h1, if_pos h2, if_pos hgt, printAtLine_eq, hcw0]
    exact exists_pre_post _ _ _ _ _ _ (le_max_right _ _)

set_option maxRecDepth 40000 in
/-- Witness for C7 on a shrinking update: on `shrinkTestState` (a two-row
line then a one-row line), updating line 0 to the one-row text `"a"`
emits — somewhere after the extend events and before the cascade/truncate
events — the erase of the single row the entry now occupies immediately
followed by the write of `"a"` at row 0, and `1 ≤ max 2 1`. -/
theorem update_erases_then_writes_witness :
    shrinkTestState.entries[0]? = some shrinkTestEntry
      ∧ (∃ sF pre post,
          printLineOp shrinkTestState 0 "a"
              = some (sF,
                  pre ++ ((List.range' shrinkTestEntry.line_number
                      (computeNbPhysicalLines shrinkTestState "a")).map Op.erase
                    ++ [Op.write "a" shrinkTestEntry.line_number]) ++ post)
            ∧ computeNbPhysicalLines shrinkTestState "a"
                ≤ max shrinkTestEntry.nb_physical_lines
                    (computeNbPhysicalLines shrinkTestState "a")) :=
  ⟨by decide,
    update_erases_then_writes shrinkTestState 0 "a" shrinkTestEntry (by decide)⟩

end Coca
